import Mathlib

/-!
Verification of the nsloopctl loop-control module (nsloopctl.c).

The development shallowly embeds the registry of active loops and threads,
the loop id generator of `EnterLoop`, the removal path of `LeaveLoop`, the
controller operations (`List`, `EvalObjCmd`, `Signal`, `AbortObjCmd`) and the
per-iteration checkpoint `CheckControl`.  Every critical section guarded by
the module's single mutex is modelled as one atomic state transition; the
windows where the lock is released (script execution inside `CheckControl`,
condition-variable waits) consume an explicit schedule of interfering
controller events.  Tcl script evaluation is an oracle
`interp : String -> Nat x String` giving the return code and the interp
result text of a script.
-/

namespace Nsloopctl

/-- Tcl return code TCL_OK. -/
def TCL_OK : Nat := 0

/-- Tcl return code TCL_ERROR. -/
def TCL_ERROR : Nat := 1

/-- States of an eval exchange (enum in `EvalData`): EVAL_WAIT, EVAL_DONE, EVAL_DROP. -/
inductive EvalState where
  | wait
  | done
  | drop
deriving DecidableEq, Repr

/-- The `EvalData` record: a pending script-injection exchange.
`code` is initialised to TCL_OK by `EvalObjCmd`; `result` collects the
interp result text. -/
structure EvalData where
  state  : EvalState
  code   : Nat
  script : String
  result : String
deriving DecidableEq, Repr

/-- The `LoopControl` enum: LOOP_RUN, LOOP_PAUSE, LOOP_CANCEL. -/
inductive LoopControl where
  | run
  | pause
  | cancel
deriving DecidableEq, Repr

/-- The `LoopData` record for one active loop (its key `lid` is the key of its
entry in the `loops` table, so it is kept outside this record). -/
structure LoopData where
  control : LoopControl
  spins   : Nat
  tid     : Nat
  etime   : Nat
  args    : List String
  evalPtr : Option EvalData
deriving DecidableEq, Repr

/-- The `ThreadData` record; `marked` is the state of the thread's
`Tcl_AsyncHandler` after `Tcl_AsyncMark`. -/
structure ThreadData where
  marked : Bool
deriving DecidableEq, Repr

/-- The two process-wide hash tables guarded by the module mutex:
`loops` (loop id to LoopData) and `threads` (thread id to ThreadData),
modelled as association lists keyed by the printed id. -/
structure Registry where
  loops   : List (String × LoopData)
  threads : List (String × ThreadData)
deriving DecidableEq, Repr

/-- Hex digit character, as produced by printf %x: 0-9 then a-f. -/
def hexDigitChar (n : Nat) : Char :=
  if n < 10 then Char.ofNat (48 + n) else Char.ofNat (87 + n)

/-- Numeric value of a hex digit character (inverse of `hexDigitChar`). -/
def hexCharVal (c : Char) : Nat :=
  if c.toNat < 87 then c.toNat - 48 else c.toNat - 87

/-- Rendering of a counter value as a lowercase hex string, as
`snprintf("%" PRIxPTR)` does in `EnterLoop` and `InitInterp`. -/
def hexString (n : Nat) : String :=
  if n = 0 then "0" else ⟨((Nat.digits 16 n).map hexDigitChar).reverse⟩

/-- Parse a hex string back to a number; left inverse of `hexString`. -/
def unhex (s : String) : Nat :=
  Nat.ofDigits 16 ((s.data.map hexCharVal).reverse)

/-- Replace the value stored under a key of a hash table (mutation through
the hash entry pointer; the module only ever inserts fresh keys, so a key
occurs at most once). -/
def updateAssoc {β : Type} : List (String × β) → String → β → List (String × β)
  | [], _, _ => []
  | p :: rest, k, v => if p.1 = k then (p.1, v) :: rest else p :: updateAssoc rest k v

/-- Delete the entry under a key of a hash table (`Tcl_DeleteHashEntry` on
the entry's own pointer). -/
def removeAssoc {β : Type} : List (String × β) → String → List (String × β)
  | [], _ => []
  | p :: rest, k => if p.1 = k then rest else p :: removeAssoc rest k

/-- The modulus of the `unsigned int` counter `next` in `EnterLoop`. -/
def UINT_MOD : Nat := 2 ^ 32

/-- The id-probing loop of `EnterLoop`:
`do { snprintf(lid, "%x", next++); hPtr = Tcl_CreateHashEntry(&loops, lid, &new); } while (!new);`
Returns the fresh key and the advanced counter; `fuel` bounds the number of
probes (the C loop is unbounded). -/
def probeId (table : List (String × LoopData)) : Nat → Nat → Option (String × Nat)
  | _, 0 => none
  | next, fuel + 1 =>
    let key := hexString (next % UINT_MOD)
    match table.lookup key with
    | some _ => probeId table (next + 1) fuel
    | none => some (key, next + 1)

/-- The `EnterLoop` routine: initialise a fresh `LoopData` (control RUN,
spins 0, no pending eval, deep-copied args) and insert it into the loops
table under a freshly probed id. -/
def enterLoop (r : Registry) (next : Nat) (tid : Nat) (etime : Nat)
    (args : List String) (fuel : Nat) : Option (Registry × Nat × String) :=
  let d : LoopData :=
    { control := .run, spins := 0, tid := tid, etime := etime, args := args, evalPtr := none }
  match probeId r.loops next fuel with
  | none => none
  | some (key, next') => some ({ r with loops := (key, d) :: r.loops }, next', key)

/-- The `LeaveLoop` routine: under the lock, if an eval exchange is pending
mark it EVAL_DROP and broadcast the condition variable, then delete the
loop's hash entry.  Returns the new registry, the dropped exchange as the
waiting controller will observe it (the C code mutates the controller's
stack object through `evalPtr`), and whether the broadcast happened. -/
def leaveLoop (r : Registry) (lid : String) : Registry × Option EvalData × Bool :=
  match r.loops.lookup lid with
  | none => (r, none, false)
  | some d =>
    match d.evalPtr with
    | some e =>
      ({ r with loops := removeAssoc r.loops lid }, some { e with state := .drop }, true)
    | none => ({ r with loops := removeAssoc r.loops lid }, none, false)

/-- Possible outcomes of a `loopctl_eval` call, as left in the interp result
by `EvalObjCmd`. -/
inductive EvalOutcome where
  | notFound
  | evalPending
  | evalTimeout
  | loopExited
  | done (code : Nat) (text : String)
deriving DecidableEq, Repr

/-- The front half of `EvalObjCmd`, up to queuing the new exchange: fail
with "no such loop id" when `GetLoop` misses, fail with "eval pending" when
`loopPtr->evalPtr != NULL`, otherwise attach a fresh EVAL_WAIT exchange
(code TCL_OK, empty result) and broadcast.  Returns the registry (unchanged
on the error paths) and either the error outcome or the attached exchange. -/
def evalAttach (r : Registry) (lid : String) (script : String) :
    Registry × Except EvalOutcome EvalData :=
  match r.loops.lookup lid with
  | none => (r, .error .notFound)
  | some d =>
    match d.evalPtr with
    | some _ => (r, .error .evalPending)
    | none =>
      let e : EvalData := { state := .wait, code := TCL_OK, script := script, result := "" }
      ({ r with loops := updateAssoc r.loops lid { d with evalPtr := some e } }, .ok e)

/-- The back half of `EvalObjCmd`, after the timed condition wait: switch on
the exchange state the controller observes on wake.  EVAL_WAIT means the
timeout fired, so the exchange is detached from the loop handle
(`loopPtr->evalPtr = NULL`) and the call fails with the timeout message;
EVAL_DROP fails with "dropped: loop exited"; EVAL_DONE returns the
exchange's code and result text as the call's own result. -/
def evalResolve (r : Registry) (lid : String) (e : EvalData) : Registry × EvalOutcome :=
  match e.state with
  | .wait =>
    let r' :=
      match r.loops.lookup lid with
      | some d => { r with loops := updateAssoc r.loops lid { d with evalPtr := none } }
      | none => r
    (r', .evalTimeout)
  | .drop => (r, .loopExited)
  | .done => (r, .done e.code e.result)

/-- The `Signal` routine shared by loopctl_pause / loopctl_run /
loopctl_cancel: look up the loop, set `control`, broadcast.  The Bool is
TCL_OK (true) or the "no such loop id" error (false). -/
def signalLoop (r : Registry) (lid : String) (c : LoopControl) : Registry × Bool :=
  match r.loops.lookup lid with
  | none => (r, false)
  | some d => ({ r with loops := updateAssoc r.loops lid { d with control := c } }, true)

/-- The `AbortObjCmd` routine: look up the thread handle; on a hit,
`Tcl_AsyncMark` the thread's cancel handler and return TCL_OK; on a miss,
leave "no such active thread" and return TCL_ERROR.  The loops table is
never touched. -/
def abortThread (r : Registry) (tid : String) : Registry × Bool :=
  match r.threads.lookup tid with
  | none => (r, false)
  | some t => ({ r with threads := updateAssoc r.threads tid { t with marked := true } }, true)

/-- The `List` routine applied to the loops table (loopctl_loops): the keys
of the table at the snapshot moment. -/
def listLoops (r : Registry) : List String :=
  r.loops.map Prod.fst

/-- The `List` routine applied to the threads table (loopctl_threads). -/
def listThreads (r : Registry) : List String :=
  r.threads.map Prod.fst

/-- The fixed timeout (seconds) of the eval wait:
`Ns_IncrTime(&timeout, 2, 0)`. -/
def evalTimeoutSeconds : Nat := 2

/-- Controller actions that can mutate a loop's `LoopData` from another
thread while the loop's own thread has released the lock inside
`CheckControl` (during script execution or a condition wait). -/
inductive LoopEvent where
  | signal (c : LoopControl)
  | attachEval (script : String)
  | detachTimeout
deriving DecidableEq, Repr

/-- Effect of one controller action on the loop's data, exactly as the
corresponding critical section mutates it: `Signal` stores the new control
state; `EvalObjCmd` attaches a fresh exchange only when none is pending;
the `EvalObjCmd` timeout path clears `evalPtr` only while the exchange is
still EVAL_WAIT. -/
def applyEvent (d : LoopData) : LoopEvent → LoopData
  | .signal c => { d with control := c }
  | .attachEval s =>
    match d.evalPtr with
    | some _ => d
    | none =>
      { d with evalPtr := some { state := .wait, code := TCL_OK, script := s, result := "" } }
  | .detachTimeout =>
    match d.evalPtr with
    | some e => if e.state = .wait then { d with evalPtr := none } else d
    | none => d

/-- Fold a batch of controller actions over the loop data. -/
def applyEvents (d : LoopData) (evs : List LoopEvent) : LoopData :=
  evs.foldl applyEvent d

/-- Observable side effects accumulated during one `CheckControl` visit:
the scripts passed to `Tcl_EvalEx` in order, the exchanges completed
(state set to EVAL_DONE, result text appended), the results discarded via
the "dropped result" log line, the number of condition broadcasts, and the
number of `Ns_TclLogErrorInfo` calls for failing scripts. -/
structure CCState where
  executed   : List String
  serviced   : List EvalData
  dropped    : List (Nat × String)
  broadcasts : Nat
  logged     : Nat
deriving DecidableEq, Repr

/-- The empty side-effect accumulator. -/
def CCState.init : CCState := ⟨[], [], [], 0, 0⟩

/-- The `if (loopPtr->evalPtr != NULL)` block of the `CheckControl` wait
loop: copy the script out, release the lock around `Tcl_EvalEx` (the head
batch of the schedule is the controller actions racing in that window), log
a failing result, re-acquire the lock; if the exchange is still attached,
append the interp result text, set EVAL_DONE, detach and broadcast, else
only log the dropped result.  When no exchange is pending, nothing
happens. -/
def serviceEval (interp : String → Nat × String) (sched : List (List LoopEvent))
    (d : LoopData) (st : CCState) : LoopData × CCState × List (List LoopEvent) :=
  match d.evalPtr with
  | some e =>
    let du := applyEvents d (sched.headD [])
    let ct := interp e.script
    let st0 := { st with executed := st.executed ++ [e.script],
                         logged := st.logged + (if ct.1 ≠ TCL_OK then 1 else 0) }
    match du.evalPtr with
    | none =>
      (du, { st0 with dropped := st0.dropped ++ [ct] }, sched.tail)
    | some e' =>
      let e2 := { e' with result := e'.result ++ ct.2, state := EvalState.done }
      ({ du with evalPtr := none },
       { st0 with serviced := st0.serviced ++ [e2], broadcasts := st0.broadcasts + 1 },
       sched.tail)
  | none => (d, st, sched)

/-- The `if (loopPtr->control == LOOP_PAUSE) Ns_CondWait(...)` step of the
`CheckControl` wait loop: a paused loop blocks until the next batch of
controller actions has run; with an empty schedule it stays blocked
forever (`none`). -/
def pauseWait (step : LoopData × CCState × List (List LoopEvent)) :
    Option (LoopData × CCState × List (List LoopEvent)) :=
  if step.1.control = .pause then
    match step.2.2 with
    | [] => none
    | evs :: rest => some (applyEvents step.1 evs, step.2.1, rest)
  else
    some step

/-- The wait loop of `CheckControl`:
`while (evalPtr != NULL or control == PAUSE)`, each iteration running
`serviceEval` then `pauseWait` before re-checking the condition.  `none`
means the visit is still blocked (pause wait with no wakeup, or fuel
exhausted). -/
def ccLoop (interp : String → Nat × String) :
    Nat → List (List LoopEvent) → LoopData → CCState → Option (LoopData × CCState)
  | 0, _, _, _ => none
  | fuel + 1, sched, d, st =>
    if d.evalPtr.isSome ∨ d.control = .pause then
      match pauseWait (serviceEval interp sched d st) with
      | none => none
      | some (d2, st2, sched2) => ccLoop interp fuel sched2 d2 st2
    else
      some (d, st)

/-- One `CheckControl` visit: under the lock, increment `spins`, run the
wait loop, then fail with the cancellation error when `control` is
LOOP_CANCEL and succeed otherwise.  The Bool is true for TCL_OK.  `none`
means the visit never returned (blocked or out of fuel). -/
def checkControl (interp : String → Nat × String) (fuel : Nat)
    (sched : List (List LoopEvent)) (d : LoopData) :
    Option (LoopData × CCState × Bool) :=
  match ccLoop interp fuel sched { d with spins := d.spins + 1 } CCState.init with
  | none => none
  | some (d', st) => some (d', st, if d'.control = .cancel then false else true)

/-! Lemmas about the hex rendering of loop ids. -/

theorem hexCharVal_hexDigitChar {n : Nat} (h : n < 16) :
    hexCharVal (hexDigitChar n) = n := by
  interval_cases n <;> decide

theorem unhex_hexString (n : Nat) : unhex (hexString n) = n := by
  by_cases h : n = 0
  · subst h; decide
  · unfold unhex hexString
    rw [if_neg h]
    show Nat.ofDigits 16 (((((Nat.digits 16 n).map hexDigitChar).reverse).map hexCharVal).reverse) = n
    rw [← List.map_reverse, List.reverse_reverse, List.map_map]
    have hdig : ∀ d ∈ Nat.digits 16 n, (hexCharVal ∘ hexDigitChar) d = d := by
      intro d hd
      exact hexCharVal_hexDigitChar (Nat.digits_lt_base (by norm_num) hd)
    rw [List.map_congr_left hdig, List.map_id', Nat.ofDigits_digits]

theorem hexString_injective : Function.Injective hexString :=
  Function.LeftInverse.injective unhex_hexString

/-! Lemmas about association-list lookups, updates and removals. -/

theorem lookup_cons_self {β : Type} (a : String) (b : β) (rest : List (String × β)) :
    List.lookup a ((a, b) :: rest) = some b := by
  simp [List.lookup]

theorem lookup_cons_ne {β : Type} {k a : String} (h : k ≠ a) (b : β)
    (rest : List (String × β)) :
    List.lookup k ((a, b) :: rest) = List.lookup k rest := by
  simp [List.lookup, beq_eq_false_iff_ne.mpr h]

theorem lookup_isSome_iff_mem {β : Type} (l : List (String × β)) (k : String) :
    (l.lookup k).isSome ↔ k ∈ l.map Prod.fst := by
  induction l with
  | nil => simp [List.lookup]
  | cons p rest ih =>
    obtain ⟨a, b⟩ := p
    by_cases h : k = a
    · subst h; simp [lookup_cons_self]
    · rw [lookup_cons_ne h]
      simp [ih, h]

theorem lookup_updateAssoc_self {β : Type} (l : List (String × β)) (k : String) (v : β)
    (h : (l.lookup k).isSome) :
    (updateAssoc l k v).lookup k = some v := by
  induction l with
  | nil => simp [List.lookup] at h
  | cons p rest ih =>
    obtain ⟨a, b⟩ := p
    by_cases hk : a = k
    · subst hk
      rw [updateAssoc, if_pos rfl, lookup_cons_self]
    · have hk' : k ≠ a := fun hkk => hk hkk.symm
      rw [lookup_cons_ne hk'] at h
      rw [updateAssoc, if_neg hk, lookup_cons_ne hk', ih h]

theorem lookup_updateAssoc_ne {β : Type} (l : List (String × β)) (k k' : String) (v : β)
    (h : k' ≠ k) :
    (updateAssoc l k v).lookup k' = l.lookup k' := by
  induction l with
  | nil => simp [updateAssoc]
  | cons p rest ih =>
    obtain ⟨a, b⟩ := p
    by_cases hk : a = k
    · subst hk
      rw [updateAssoc, if_pos rfl, lookup_cons_ne h, lookup_cons_ne h]
    · by_cases hk' : k' = a
      · subst hk'
        rw [updateAssoc, if_neg hk, lookup_cons_self, lookup_cons_self]
      · rw [updateAssoc, if_neg hk, lookup_cons_ne hk', lookup_cons_ne hk', ih]

theorem lookup_removeAssoc_self {β : Type} (l : List (String × β)) (k : String)
    (hnd : (l.map Prod.fst).Nodup) :
    (removeAssoc l k).lookup k = none := by
  induction l with
  | nil => simp [removeAssoc, List.lookup]
  | cons p rest ih =>
    obtain ⟨a, b⟩ := p
    simp only [List.map_cons, List.nodup_cons] at hnd
    by_cases hk : a = k
    · subst hk
      rw [removeAssoc, if_pos rfl]
      rcases h : rest.lookup a with _ | v
      · rfl
      · exact absurd ((lookup_isSome_iff_mem rest a).mp (by simp [h])) hnd.1
    · have hk' : k ≠ a := fun hkk => hk hkk.symm
      rw [removeAssoc, if_neg hk, lookup_cons_ne hk', ih hnd.2]

theorem lookup_removeAssoc_ne {β : Type} (l : List (String × β)) (k k' : String)
    (h : k' ≠ k) :
    (removeAssoc l k).lookup k' = l.lookup k' := by
  induction l with
  | nil => simp [removeAssoc]
  | cons p rest ih =>
    obtain ⟨a, b⟩ := p
    by_cases hk : a = k
    · subst hk
      rw [removeAssoc, if_pos rfl, lookup_cons_ne h]
    · by_cases hk' : k' = a
      · subst hk'
        rw [removeAssoc, if_neg hk, lookup_cons_self, lookup_cons_self]
      · rw [removeAssoc, if_neg hk, lookup_cons_ne hk', lookup_cons_ne hk', ih]

theorem length_removeAssoc {β : Type} (l : List (String × β)) (k : String)
    (h : (l.lookup k).isSome) :
    (removeAssoc l k).length + 1 = l.length := by
  induction l with
  | nil => simp [List.lookup] at h
  | cons p rest ih =>
    obtain ⟨a, b⟩ := p
    by_cases hk : a = k
    · subst hk; simp [removeAssoc]
    · have hk' : k ≠ a := fun hkk => hk hkk.symm
      rw [lookup_cons_ne hk'] at h
      simp [removeAssoc, hk, ih h]

/-! Lemmas about the id-probing loop of `EnterLoop`. -/

theorem probeId_none_spec (table : List (String × LoopData)) (fuel : Nat) :
    ∀ next, probeId table next fuel = none →
      ∀ i < fuel, (table.lookup (hexString ((next + i) % UINT_MOD))).isSome := by
  induction fuel with
  | zero => intro next _ i hi; omega
  | succ fuel ih =>
    intro next h i hi
    simp only [probeId] at h
    rcases hl : table.lookup (hexString (next % UINT_MOD)) with _ | d
    · rw [hl] at h; exact absurd h (by simp)
    · rw [hl] at h
      match i with
      | 0 => rw [Nat.add_zero]; simp [hl]
      | j + 1 =>
        have hj := ih (next + 1) h j (by omega)
        have harith : next + 1 + j = next + (j + 1) := by omega
        rwa [harith] at hj

theorem probeId_some_spec (table : List (String × LoopData)) (fuel : Nat) :
    ∀ next key next', probeId table next fuel = some (key, next') →
      table.lookup key = none ∧
      ∃ k < fuel, key = hexString ((next + k) % UINT_MOD) ∧ next' = next + k + 1 ∧
        ∀ i < k, (table.lookup (hexString ((next + i) % UINT_MOD))).isSome := by
  induction fuel with
  | zero => intro next key next' h; simp [probeId] at h
  | succ fuel ih =>
    intro next key next' h
    simp only [probeId] at h
    rcases hl : table.lookup (hexString (next % UINT_MOD)) with _ | d
    · rw [hl] at h
      simp only [Option.some.injEq, Prod.mk.injEq] at h
      obtain ⟨hkey, hnext⟩ := h
      subst hkey
      exact ⟨hl, 0, by omega, by rw [Nat.add_zero], by omega, fun i hi => by omega⟩
    · rw [hl] at h
      obtain ⟨h1, k, hk, h2, h3, h4⟩ := ih (next + 1) key next' h
      refine ⟨h1, k + 1, by omega, ?_, by omega, ?_⟩
      · have harith : next + 1 + k = next + (k + 1) := by omega
        rwa [harith] at h2
      · intro i hi
        match i with
        | 0 => rw [Nat.add_zero]; simp [hl]
        | j + 1 =>
          have hj := h4 j (by omega)
          have harith : next + 1 + j = next + (j + 1) := by omega
          rwa [harith] at hj

theorem probeId_succeeds (table : List (String × LoopData)) (next : Nat)
    (hlen : table.length < UINT_MOD) :
    ∃ key next', probeId table next (table.length + 1) = some (key, next') := by
  rcases h : probeId table next (table.length + 1) with _ | p
  · exfalso
    have hall := probeId_none_spec table (table.length + 1) next h
    set L := table.length with hL
    set f : Nat → String := fun i => hexString ((next + i) % UINT_MOD) with hf
    have hmaps : ∀ i ∈ Finset.range (L + 1), f i ∈ (table.map Prod.fst).toFinset := by
      intro i hi
      rw [List.mem_toFinset]
      exact (lookup_isSome_iff_mem table (f i)).mp (hall i (Finset.mem_range.mp hi))
    have hinj : Set.InjOn f (Finset.range (L + 1)) := by
      intro i hi j hj hij
      simp only [Finset.coe_range, Set.mem_Iio] at hi hj
      have hmod : (next + i) % UINT_MOD = (next + j) % UINT_MOD := hexString_injective hij
      have hcan : i % UINT_MOD = j % UINT_MOD := Nat.ModEq.add_left_cancel' next hmod
      have hiM : i < UINT_MOD := by omega
      have hjM : j < UINT_MOD := by omega
      rwa [Nat.mod_eq_of_lt hiM, Nat.mod_eq_of_lt hjM] at hcan
    have hcard := Finset.card_le_card_of_injOn f hmaps hinj
    rw [Finset.card_range] at hcard
    have hle : (table.map Prod.fst).toFinset.card ≤ L := by
      calc (table.map Prod.fst).toFinset.card ≤ (table.map Prod.fst).length :=
            List.toFinset_card_le _
        _ = L := by rw [List.length_map]
    omega
  · obtain ⟨key, next'⟩ := p
    exact ⟨key, next', rfl⟩

/-! Lemmas about the checkpoint wait loop: no step of it ever touches the
`spins` counter, which `checkControl` increments exactly once on entry. -/

theorem applyEvent_spins (d : LoopData) (ev : LoopEvent) :
    (applyEvent d ev).spins = d.spins := by
  cases ev with
  | signal c => rfl
  | attachEval s =>
    rcases h : d.evalPtr with _ | e <;> simp [applyEvent, h]
  | detachTimeout =>
    rcases h : d.evalPtr with _ | e
    · simp [applyEvent, h]
    · by_cases hs : e.state = .wait <;> simp [applyEvent, h, hs]

theorem applyEvents_spins (evs : List LoopEvent) :
    ∀ d, (applyEvents d evs).spins = d.spins := by
  induction evs with
  | nil => intro d; rfl
  | cons ev rest ih =>
    intro d
    show (applyEvents (applyEvent d ev) rest).spins = d.spins
    rw [ih, applyEvent_spins]

theorem serviceEval_spins (interp : String → Nat × String) (sched : List (List LoopEvent))
    (d : LoopData) (st : CCState) :
    (serviceEval interp sched d st).1.spins = d.spins := by
  rcases h : d.evalPtr with _ | e
  · simp [serviceEval, h]
  · simp only [serviceEval, h]
    rcases hdu : (applyEvents d (sched.headD [])).evalPtr with _ | e' <;>
      simp [hdu, applyEvents_spins]

theorem pauseWait_spins (step : LoopData × CCState × List (List LoopEvent))
    (d2 : LoopData) (st2 : CCState) (sched2 : List (List LoopEvent))
    (h : pauseWait step = some (d2, st2, sched2)) : d2.spins = step.1.spins := by
  unfold pauseWait at h
  by_cases hc : step.1.control = .pause
  · rw [if_pos hc] at h
    rcases hs : step.2.2 with _ | ⟨evs, rest⟩
    · rw [hs] at h; simp at h
    · rw [hs] at h
      simp only [Option.some.injEq, Prod.mk.injEq] at h
      rw [← h.1, applyEvents_spins]
  · rw [if_neg hc] at h
    simp only [Option.some.injEq] at h
    rw [h]

theorem ccLoop_spins (interp : String → Nat × String) (fuel : Nat) :
    ∀ sched d st d' st', ccLoop interp fuel sched d st = some (d', st') →
      d'.spins = d.spins := by
  induction fuel with
  | zero => intro sched d st d' st' h; simp [ccLoop] at h
  | succ fuel ih =>
    intro sched d st d' st' h
    rw [ccLoop] at h
    by_cases hc : d.evalPtr.isSome ∨ d.control = .pause
    · rw [if_pos hc] at h
      rcases hw : pauseWait (serviceEval interp sched d st) with _ | trip
      · rw [hw] at h; simp at h
      · rw [hw] at h
        obtain ⟨d2, st2, sched2⟩ := trip
        have h2 := ih sched2 d2 st2 d' st' h
        have h3 := pauseWait_spins _ _ _ _ hw
        rw [h2, h3, serviceEval_spins]
    · rw [if_neg hc] at h
      simp only [Option.some.injEq, Prod.mk.injEq] at h
      rw [← h.1]

theorem checkControl_spins (interp : String → Nat × String) (fuel : Nat)
    (sched : List (List LoopEvent)) (d : LoopData) (d' : LoopData) (st : CCState) (ok : Bool)
    (h : checkControl interp fuel sched d = some (d', st, ok)) :
    d'.spins = d.spins + 1 := by
  unfold checkControl at h
  rcases hcc : ccLoop interp fuel sched { d with spins := d.spins + 1 } CCState.init
    with _ | p
  · rw [hcc] at h; simp at h
  · rw [hcc] at h
    obtain ⟨dcc, stcc⟩ := p
    simp only [Option.some.injEq, Prod.mk.injEq] at h
    rw [← h.1]
    exact ccLoop_spins interp fuel _ _ _ _ _ hcc

/-- Helper: when the loop is registered, `LeaveLoop` leaves the loops table
with exactly that entry removed, whatever the pending-eval state. -/
theorem leaveLoop_loops_of_found (r : Registry) (lid : String) (d : LoopData)
    (h : r.loops.lookup lid = some d) :
    (leaveLoop r lid).1.loops = removeAssoc r.loops lid := by
  unfold leaveLoop
  simp only [h]
  rcases he : d.evalPtr with _ | e <;> simp only [he]

/-- C1: unregistering a loop (`LeaveLoop`) while it has a pending eval
exchange in state EVAL_WAIT marks that exchange EVAL_DROP and broadcasts
the condition variable, and removes the loop's registry entry; the
controller waiting in `EvalObjCmd` therefore resolves the exchange as
EVAL_DROP, failing with the "dropped: loop exited" outcome and not with
the timeout outcome. -/
theorem c1_unregister_drops_pending_eval (r : Registry) (lid : String) (d : LoopData)
    (e : EvalData) (hnd : (r.loops.map Prod.fst).Nodup)
    (hd : r.loops.lookup lid = some d) (he : d.evalPtr = some e) (hw : e.state = .wait) :
    (leaveLoop r lid).2.1 = some { e with state := .drop } ∧
    (leaveLoop r lid).2.2 = true ∧
    (leaveLoop r lid).1.loops.lookup lid = none ∧
    (evalResolve (leaveLoop r lid).1 lid { e with state := .drop }).2 = .loopExited ∧
    .loopExited ≠ EvalOutcome.evalTimeout := by
  have hloops := leaveLoop_loops_of_found r lid d hd
  refine ⟨?_, ?_, ?_, rfl, by decide⟩
  · unfold leaveLoop; simp only [hd, he]
  · unfold leaveLoop; simp only [hd, he]
  · rw [hloops]
    exact lookup_removeAssoc_self r.loops lid hnd

/-- Concrete registry used to witness C1. -/
def c1e : EvalData := { state := .wait, code := TCL_OK, script := "set x 1", result := "" }

/-- Concrete loop used to witness C1. -/
def c1d : LoopData :=
  { control := .run, spins := 3, tid := 5, etime := 0, args := ["while", "1", "cmd"],
    evalPtr := some c1e }

/-- Concrete registry used to witness C1. -/
def c1reg : Registry := { loops := [("0", c1d)], threads := [] }

theorem c1_unregister_drops_pending_eval_witness :
    (leaveLoop c1reg "0").2.1 = some { c1e with state := .drop } ∧
    (leaveLoop c1reg "0").2.2 = true ∧
    (leaveLoop c1reg "0").1.loops.lookup "0" = none ∧
    (evalResolve (leaveLoop c1reg "0").1 "0" { c1e with state := .drop }).2 = .loopExited ∧
    .loopExited ≠ EvalOutcome.evalTimeout :=
  c1_unregister_drops_pending_eval c1reg "0" c1d c1e (by decide) (by decide) rfl rfl

/-- C4: `EvalObjCmd` against an absent loop id fails with the "no such loop
id" outcome and leaves the registry untouched; against a loop that already
has an attached exchange it fails with "eval pending", leaves the registry
untouched, and the already-pending exchange stays attached exactly as it
was. -/
theorem c4_eval_notfound_and_pending (r : Registry) (lid script : String) :
    (r.loops.lookup lid = none →
      evalAttach r lid script = (r, .error .notFound)) ∧
    (∀ d e, r.loops.lookup lid = some d → d.evalPtr = some e →
      evalAttach r lid script = (r, .error .evalPending) ∧
      (evalAttach r lid script).1.loops.lookup lid = some d ∧
      d.evalPtr = some e) := by
  constructor
  · intro h
    unfold evalAttach
    simp only [h]
  · intro d e hd he
    have hmain : evalAttach r lid script = (r, .error .evalPending) := by
      unfold evalAttach
      simp only [hd, he]
    exact ⟨hmain, by rw [hmain]; exact hd, he⟩

/-- Concrete loop with a pending exchange, used to witness C4. -/
def c4d : LoopData :=
  { control := .run, spins := 1, tid := 2, etime := 0, args := [],
    evalPtr := some { state := .wait, code := TCL_OK, script := "set y", result := "" } }

/-- Concrete registry used to witness C4. -/
def c4reg : Registry := { loops := [("b", c4d)], threads := [] }

theorem c4_eval_notfound_and_pending_witness :
    evalAttach c4reg "zzz" "set x 1" = (c4reg, .error .notFound) ∧
    evalAttach c4reg "b" "set x 1" = (c4reg, .error .evalPending) :=
  ⟨(c4_eval_notfound_and_pending c4reg "zzz" "set x 1").1 (by decide),
   ((c4_eval_notfound_and_pending c4reg "b" "set x 1").2 c4d
      { state := .wait, code := TCL_OK, script := "set y", result := "" }
      (by decide) rfl).1⟩

/-- C5: when the timed wait of `EvalObjCmd` elapses with the exchange still
EVAL_WAIT, the call detaches the exchange from the loop handle (the loop's
`evalPtr` becomes NULL, so the loop will not act on the stale request) and
fails with the timeout outcome. -/
theorem c5_timeout_detaches (r : Registry) (lid : String) (d : LoopData) (e : EvalData)
    (hd : r.loops.lookup lid = some d) (hw : e.state = .wait) :
    (evalResolve r lid e).2 = .evalTimeout ∧
    (evalResolve r lid e).1.loops.lookup lid = some { d with evalPtr := none } := by
  unfold evalResolve
  simp only [hw, hd]
  exact ⟨by trivial, lookup_updateAssoc_self r.loops lid _ (by simp [hd])⟩

/-- Concrete pending exchange used to witness C5. -/
def c5e : EvalData := { state := .wait, code := TCL_OK, script := "set z", result := "" }

/-- Concrete registry used to witness C5. -/
def c5reg : Registry := { loops := [("3", { c4d with evalPtr := some c5e })], threads := [] }

theorem c5_timeout_detaches_witness :
    (evalResolve c5reg "3" c5e).2 = .evalTimeout ∧
    (evalResolve c5reg "3" c5e).1.loops.lookup "3" =
      some { { c4d with evalPtr := some c5e } with evalPtr := none } :=
  c5_timeout_detaches c5reg "3" { c4d with evalPtr := some c5e } c5e (by decide) rfl

/-- C8: `EnterLoop` always registers under a fresh id: with the probe fuel
of one more than the table size, the probing loop succeeds, the returned
key was not previously present, it is the hex rendering of the first
counter value whose key is free (every earlier counter value collided),
and immediately afterwards the registry maps the returned id to the newly
initialised handle. -/
theorem c8_enterloop_fresh_id (r : Registry) (next tid etime : Nat) (args : List String)
    (hlen : r.loops.length < UINT_MOD) :
    ∃ r' next' lid,
      enterLoop r next tid etime args (r.loops.length + 1) = some (r', next', lid) ∧
      r.loops.lookup lid = none ∧
      (∃ k ≤ r.loops.length, lid = hexString ((next + k) % UINT_MOD) ∧
        next' = next + k + 1 ∧
        ∀ i < k, (r.loops.lookup (hexString ((next + i) % UINT_MOD))).isSome) ∧
      r'.loops.lookup lid =
        some { control := .run, spins := 0, tid := tid, etime := etime,
               args := args, evalPtr := none } := by
  obtain ⟨key, next', hp⟩ := probeId_succeeds r.loops next hlen
  obtain ⟨hfresh, k, hk, hkey, hnext, hprev⟩ :=
    probeId_some_spec r.loops (r.loops.length + 1) next key next' hp
  refine ⟨{ r with loops :=
      (key, { control := .run, spins := 0, tid := tid, etime := etime,
              args := args, evalPtr := none }) :: r.loops },
    next', key, ?_, hfresh, ⟨k, by omega, hkey, hnext, hprev⟩, ?_⟩
  · unfold enterLoop
    simp only [hp]
  · exact lookup_cons_self key _ r.loops

theorem c8_enterloop_fresh_id_witness :
    ∃ r' next' lid,
      enterLoop c1reg 0 9 7 ["for", "body"] (c1reg.loops.length + 1) = some (r', next', lid) ∧
      c1reg.loops.lookup lid = none ∧
      (∃ k ≤ c1reg.loops.length, lid = hexString ((0 + k) % UINT_MOD) ∧
        next' = 0 + k + 1 ∧
        ∀ i < k, (c1reg.loops.lookup (hexString ((0 + i) % UINT_MOD))).isSome) ∧
      r'.loops.lookup lid =
        some { control := .run, spins := 0, tid := 9, etime := 7,
               args := ["for", "body"], evalPtr := none } :=
  c8_enterloop_fresh_id c1reg 0 9 7 ["for", "body"] (by decide)

/-- C9: `AbortObjCmd` fails with "no such active thread" when no thread
handle is registered for the id, marks the thread's async cancel handle
and succeeds when one is, and in every case leaves the loops table
completely unchanged. -/
theorem c9_abort_thread (r : Registry) (tid : String) :
    (abortThread r tid).1.loops = r.loops ∧
    (r.threads.lookup tid = none → abortThread r tid = (r, false)) ∧
    (∀ t, r.threads.lookup tid = some t →
      (abortThread r tid).2 = true ∧
      (abortThread r tid).1.threads.lookup tid = some { t with marked := true }) := by
  refine ⟨?_, ?_, ?_⟩
  · unfold abortThread
    rcases h : r.threads.lookup tid with _ | t <;> simp only [h]
  · intro h
    unfold abortThread
    simp only [h]
  · intro t h
    unfold abortThread
    simp only [h]
    exact ⟨by trivial, lookup_updateAssoc_self r.threads tid _ (by simp [h])⟩

/-- Concrete registry used to witness C9: one registered loop, one thread. -/
def c9reg : Registry := { loops := [("0", c1d)], threads := [("beef", { marked := false })] }

theorem c9_abort_thread_witness :
    (abortThread c9reg "beef").1.loops = c9reg.loops ∧
    (abortThread c9reg "beef").2 = true ∧
    (abortThread c9reg "beef").1.threads.lookup "beef" = some { marked := true } :=
  ⟨(c9_abort_thread c9reg "beef").1,
   ((c9_abort_thread c9reg "beef").2.2 { marked := false } (by decide)).1,
   ((c9_abort_thread c9reg "beef").2.2 { marked := false } (by decide)).2⟩

/-- C3: the loops table is exactly the set of currently registered ids:
`EnterLoop` adds exactly one fresh id (the listing gains exactly that id,
the length grows by one, every other id's entry is untouched), `LeaveLoop`
removes exactly the leaving loop's id (length shrinks by one, that id is
gone, every other id's entry is untouched), and an id is listed by the
`List` operation if and only if it is present in the table. -/
theorem c3_registry_exact_set (r : Registry) (next tid etime : Nat) (args : List String)
    (lid : String) (d : LoopData)
    (hlen : r.loops.length < UINT_MOD) (hnd : (r.loops.map Prod.fst).Nodup)
    (hreg : r.loops.lookup lid = some d) :
    (∃ r' next' newId,
      enterLoop r next tid etime args (r.loops.length + 1) = some (r', next', newId) ∧
      r.loops.lookup newId = none ∧
      listLoops r' = newId :: listLoops r ∧
      r'.loops.length = r.loops.length + 1 ∧
      (r'.loops.lookup newId).isSome ∧
      ∀ k, k ≠ newId → r'.loops.lookup k = r.loops.lookup k) ∧
    ((leaveLoop r lid).1.loops.length + 1 = r.loops.length ∧
     (leaveLoop r lid).1.loops.lookup lid = none ∧
     ∀ k, k ≠ lid → (leaveLoop r lid).1.loops.lookup k = r.loops.lookup k) ∧
    (∀ k, k ∈ listLoops r ↔ (r.loops.lookup k).isSome) := by
  refine ⟨?_, ?_, ?_⟩
  · obtain ⟨key, next', hp⟩ := probeId_succeeds r.loops next hlen
    have hspec := probeId_some_spec r.loops (r.loops.length + 1) next key next' hp
    refine ⟨{ r with loops :=
        (key, { control := .run, spins := 0, tid := tid, etime := etime,
                args := args, evalPtr := none }) :: r.loops },
      next', key, ?_, hspec.1, rfl, rfl, ?_, ?_⟩
    · unfold enterLoop
      simp only [hp]
    · simp [lookup_cons_self]
    · intro k hk
      exact lookup_cons_ne hk _ _
  · have hloops := leaveLoop_loops_of_found r lid d hreg
    refine ⟨?_, ?_, ?_⟩
    · rw [hloops]
      exact length_removeAssoc r.loops lid (by simp [hreg])
    · rw [hloops]
      exact lookup_removeAssoc_self r.loops lid hnd
    · intro k hk
      rw [hloops]
      exact lookup_removeAssoc_ne r.loops lid k hk
  · intro k
    exact (lookup_isSome_iff_mem r.loops k).symm

/-- Concrete loop used to witness C3. -/
def c3d : LoopData :=
  { control := .pause, spins := 9, tid := 4, etime := 2, args := ["foreach", "x", "l", "b"],
    evalPtr := none }

/-- Concrete registry used to witness C3. -/
def c3reg : Registry := { loops := [("a", c3d)], threads := [] }

theorem c3_registry_exact_set_witness :
    (∃ r' next' newId,
      enterLoop c3reg 0 1 1 ["while"] (c3reg.loops.length + 1) = some (r', next', newId) ∧
      c3reg.loops.lookup newId = none ∧
      listLoops r' = newId :: listLoops c3reg ∧
      r'.loops.length = c3reg.loops.length + 1 ∧
      (r'.loops.lookup newId).isSome ∧
      ∀ k, k ≠ newId → r'.loops.lookup k = c3reg.loops.lookup k) ∧
    ((leaveLoop c3reg "a").1.loops.length + 1 = c3reg.loops.length ∧
     (leaveLoop c3reg "a").1.loops.lookup "a" = none ∧
     ∀ k, k ≠ "a" → (leaveLoop c3reg "a").1.loops.lookup k = c3reg.loops.lookup k) ∧
    (∀ k, k ∈ listLoops c3reg ↔ (c3reg.loops.lookup k).isSome) :=
  c3_registry_exact_set c3reg 0 1 1 ["while"] "a" c3d (by decide) (by decide) (by decide)

/-- C6: whenever a `CheckControl` visit returns (however the wait loop of
pause waits and eval services went, including a cancellation that arrived
while the loop was blocked in the pause wait), the visit fails — returns
TCL_ERROR, so the loop body is not executed — exactly when the control
state is LOOP_CANCEL at that point, and succeeds otherwise. -/
theorem c6_cancel_checked_after_wait (interp : String → Nat × String) (fuel : Nat)
    (sched : List (List LoopEvent)) (d d' : LoopData) (st : CCState) (ok : Bool)
    (h : checkControl interp fuel sched d = some (d', st, ok)) :
    (d'.control = .cancel → ok = false) ∧ (d'.control ≠ .cancel → ok = true) := by
  unfold checkControl at h
  rcases hcc : ccLoop interp fuel sched { d with spins := d.spins + 1 } CCState.init
    with _ | p
  · rw [hcc] at h; simp at h
  · rw [hcc] at h
    obtain ⟨dc, stc⟩ := p
    simp only [Option.some.injEq, Prod.mk.injEq] at h
    obtain ⟨h1, _, h3⟩ := h
    subst h1
    constructor
    · intro hcval
      rw [← h3, if_pos hcval]
    · intro hcval
      rw [← h3, if_neg hcval]

/-- Concrete interp oracle used by the checkpoint witnesses. -/
def cOkInterp : String → Nat × String := fun _ => (TCL_OK, "")

/-- Concrete paused loop used to witness C6 and C7. -/
def c6d : LoopData :=
  { control := .pause, spins := 5, tid := 3, etime := 0, args := [], evalPtr := none }

theorem c6_cancel_checked_after_wait_witness :
    (({ c6d with spins := 6, control := .cancel } : LoopData).control = .cancel →
      false = false) ∧
    (({ c6d with spins := 6, control := .cancel } : LoopData).control ≠ .cancel →
      false = true) :=
  c6_cancel_checked_after_wait cOkInterp 2 [[.signal .cancel]] c6d
    { c6d with spins := 6, control := .cancel } CCState.init false (by decide)

/-- Helper: when no controller events are scheduled, the service step leaves
the control state alone and the schedule empty. -/
theorem serviceEval_nil (interp : String → Nat × String) (d : LoopData) (st : CCState) :
    (serviceEval interp [] d st).1.control = d.control ∧
    (serviceEval interp [] d st).2.2 = ([] : List (List LoopEvent)) := by
  rcases h : d.evalPtr with _ | e
  · simp [serviceEval, h]
  · simp [serviceEval, h, applyEvents]

/-- C7: the spin counter is incremented exactly once per completed
`CheckControl` visit, whatever happened during the visit's wait loop; and a
loop whose control state is LOOP_PAUSE with no wakeup event scheduled never
returns from the visit at all (it blocks in `Ns_CondWait`), so its spin
counter stops advancing until it is signalled again. -/
theorem c7_pause_stops_spins (interp : String → Nat × String) (fuel : Nat) :
    (∀ sched d d' st ok, checkControl interp fuel sched d = some (d', st, ok) →
      d'.spins = d.spins + 1) ∧
    (∀ d, d.control = .pause → checkControl interp fuel [] d = none) := by
  constructor
  · intro sched d d' st ok h
    exact checkControl_spins interp fuel sched d d' st ok h
  · intro d hp
    unfold checkControl
    suffices hs : ccLoop interp fuel [] { d with spins := d.spins + 1 } CCState.init = none by
      rw [hs]
    cases fuel with
    | zero => rfl
    | succ fuel =>
      rw [ccLoop]
      have hp1 : ({ d with spins := d.spins + 1 } : LoopData).control = .pause := hp
      rw [if_pos (Or.inr hp1)]
      have hse := serviceEval_nil interp { d with spins := d.spins + 1 } CCState.init
      have hpw : pauseWait (serviceEval interp [] { d with spins := d.spins + 1 }
          CCState.init) = none := by
        unfold pauseWait
        rw [if_pos (by rw [hse.1]; exact hp1), hse.2]
      rw [hpw]

theorem c7_pause_stops_spins_witness :
    ({ c6d with spins := 6, control := .cancel } : LoopData).spins = c6d.spins + 1 ∧
    checkControl cOkInterp 4 [] c6d = none :=
  ⟨(c7_pause_stops_spins cOkInterp 2).1 [[.signal .cancel]] c6d
      { c6d with spins := 6, control := .cancel } CCState.init false (by decide),
   (c7_pause_stops_spins cOkInterp 4).2 c6d rfl⟩

/-- Helper: servicing a freshly attached exchange with no racing controller
action executes its script once, appends the interp result text to the
(empty) result buffer, marks the exchange EVAL_DONE, detaches it and
broadcasts; a failing result additionally gets logged.  The exchange's
`code` field is not written: it keeps the TCL_OK stored at attach time. -/
theorem serviceEval_fresh (interp : String → Nat × String) (d : LoopData) (s : String)
    (st : CCState)
    (he : d.evalPtr = some { state := .wait, code := TCL_OK, script := s, result := "" }) :
    serviceEval interp [[]] d st =
      ({ d with evalPtr := none },
       { st with
          executed := st.executed ++ [s],
          logged := st.logged + (if (interp s).1 ≠ TCL_OK then 1 else 0),
          serviced := st.serviced ++
            [{ state := .done, code := TCL_OK, script := s, result := (interp s).2 }],
          broadcasts := st.broadcasts + 1 },
       []) := by
  simp only [serviceEval, he, List.headD, applyEvents, List.foldl_nil, List.tail,
    String.empty_append]

/-- Helper: `pauseWait` is a no-op for a loop that is not paused. -/
theorem pauseWait_skip (step : LoopData × CCState × List (List LoopEvent))
    (hnp : step.1.control ≠ .pause) : pauseWait step = some step := by
  unfold pauseWait
  rw [if_neg hnp]

/-- Helper: the wait loop exits at once when no exchange is pending and the
loop is not paused. -/
theorem ccLoop_exit (interp : String → Nat × String) (sched : List (List LoopEvent))
    (d : LoopData) (st : CCState)
    (hne : d.evalPtr = none) (hnp : d.control ≠ .pause) :
    ccLoop interp 1 sched d st = some (d, st) := by
  rw [ccLoop, if_neg (by simp [hne, hnp])]

/-- Helper: a full `CheckControl` wait loop that services one fresh
exchange on a running loop, with no racing controller action, and
terminates immediately afterwards. -/
theorem ccLoop_service_once (interp : String → Nat × String) (d : LoopData) (s : String)
    (st : CCState) (hc : d.control = .run)
    (he : d.evalPtr = some { state := .wait, code := TCL_OK, script := s, result := "" }) :
    ccLoop interp 2 [[]] d st =
      some ({ d with evalPtr := none },
            { st with
               executed := st.executed ++ [s],
               logged := st.logged + (if (interp s).1 ≠ TCL_OK then 1 else 0),
               serviced := st.serviced ++
                 [{ state := .done, code := TCL_OK, script := s, result := (interp s).2 }],
               broadcasts := st.broadcasts + 1 }) := by
  rw [ccLoop, if_pos (Or.inl (by simp [he])), serviceEval_fresh interp d s st he,
    pauseWait_skip _ (by simp [hc])]
  exact ccLoop_exit interp [] _ _ rfl (by simp [hc])

/-- C10: a serviced script whose evaluation returns a non-TCL_OK code does
not terminate or cancel the loop: the checkpoint still records the interp
result text into the exchange, marks it EVAL_DONE, detaches it, broadcasts
and logs the failure (once), and then returns TCL_OK — since the control
state is still LOOP_RUN — so the loop body executes on that same
iteration; the waiting controller resolves the exchange as a Done outcome
carrying that text. -/
theorem c10_failing_script_only_logged (interp : String → Nat × String) (d : LoopData)
    (s : String) (hc : d.control = .run)
    (he : d.evalPtr = some { state := .wait, code := TCL_OK, script := s, result := "" })
    (hf : (interp s).1 ≠ TCL_OK) :
    checkControl interp 2 [[]] d =
      some ({ d with spins := d.spins + 1, evalPtr := none },
            { executed := [s],
              serviced := [{ state := .done, code := TCL_OK, script := s,
                             result := (interp s).2 }],
              dropped := [], broadcasts := 1, logged := 1 },
            true) ∧
    (∀ r lid, (evalResolve r lid { state := .done,
                                   code := TCL_OK,
                                   script := s,
                                   result := (interp s).2 }).2
      = .done TCL_OK (interp s).2) := by
  refine ⟨?_, fun r lid => rfl⟩
  unfold checkControl
  have he1 : ({ d with spins := d.spins + 1 } : LoopData).evalPtr =
      some { state := .wait, code := TCL_OK, script := s, result := "" } := he
  have hc1 : ({ d with spins := d.spins + 1 } : LoopData).control = .run := hc
  rw [ccLoop_service_once interp { d with spins := d.spins + 1 } s CCState.init hc1 he1]
  simp [hc, hf, CCState.init]

/-- Concrete loop used to witness C10. -/
def c10d : LoopData :=
  { control := .run, spins := 2, tid := 8, etime := 1, args := ["while", "1", "b"],
    evalPtr := some { state := .wait, code := TCL_OK, script := "error boom", result := "" } }

/-- Concrete failing interp oracle used to witness C10: every script fails
with TCL_ERROR and leaves "boom" as the interp result. -/
def cErrInterp : String → Nat × String := fun _ => (TCL_ERROR, "boom")

theorem c10_failing_script_only_logged_witness :
    checkControl cErrInterp 2 [[]] c10d =
      some ({ c10d with spins := c10d.spins + 1, evalPtr := none },
            { executed := ["error boom"],
              serviced := [{ state := .done, code := TCL_OK, script := "error boom",
                             result := (cErrInterp "error boom").2 }],
              dropped := [], broadcasts := 1, logged := 1 },
            true) ∧
    (∀ r lid, (evalResolve r lid { state := .done,
                                   code := TCL_OK,
                                   script := "error boom",
                                   result := (cErrInterp "error boom").2 }).2
      = .done TCL_OK (cErrInterp "error boom").2) :=
  c10_failing_script_only_logged cErrInterp c10d "error boom" rfl rfl (by decide)

/-- Concrete loop used by the C2 counterexample run. -/
def c2d : LoopData :=
  { control := .run, spins := 0, tid := 1, etime := 0, args := ["for"],
    evalPtr := some { state := .wait, code := TCL_OK, script := "error boom", result := "" } }

/-- C2: at a failing input the round trip does NOT return the execution's
own result code: the script's evaluation returns TCL_ERROR, yet the
serviced exchange still carries code TCL_OK — `CheckControl` never writes
the `Tcl_EvalEx` result into `evalPtr->code`, which keeps the TCL_OK
stored at attach time — so the caller's outcome is `done TCL_OK "boom"`,
not the execution's `(TCL_ERROR, "boom")`.  The result text, the single
execution and the EVAL_DONE transition do behave as claimed. -/
theorem c2_eval_code_not_propagated :
    (cErrInterp "error boom").1 = TCL_ERROR ∧
    TCL_ERROR ≠ TCL_OK ∧
    checkControl cErrInterp 2 [[]] c2d =
      some ({ c2d with spins := 1, evalPtr := none },
            { executed := ["error boom"],
              serviced := [{ state := .done, code := TCL_OK, script := "error boom",
                             result := "boom" }],
              dropped := [], broadcasts := 1, logged := 1 },
            true) ∧
    (∀ r lid, (evalResolve r lid { state := .done,
                                   code := TCL_OK,
                                   script := "error boom",
                                   result := "boom" }).2
      = .done TCL_OK "boom") := by
  refine ⟨rfl, by decide, by decide, fun r lid => rfl⟩

end Nsloopctl

